import Mathlib

/-!
Shallow embedding of `run.py` (PDFTurn): a batch converter that turns each
subfolder of `input/` into one PDF in `output/`, staging resized images in a
shared temporary directory `temp_pdf_images`.

The embedding follows the source:
  * the natural-sort key `lambda x: [int(c) if c.isdigit() else c for c in re.split('([0-9]+)', x)]`;
  * the target-size resolution block (lines 90-100);
  * the per-image staging loop with its `try/except` (lines 103-137);
  * PDF assembly from the staged file list (lines 140-144);
  * the pipeline driver with `makedirs`, the interactive prompt, and the
    `try/finally` that removes the temp directory (lines 56-149).
Filesystem and imaging effects are represented by explicit environment
functions (decode results, save success) and an association-list store for
the shared temp directory.
-/

namespace PDFTurn

/-! ## Natural sort key (run.py line 83) -/

/-- One element of the Python sort key list: either a non-digit text run kept
as a string, or a digit run converted by `int`. -/
inductive Chunk where
  | str : String → Chunk
  | num : Nat → Chunk
deriving DecidableEq

/-- Accumulating splitter for `re.split('([0-9]+)', x)`: walks the characters
keeping the current run (reversed) and whether it is a digit run. The result
always starts and ends with a (possibly empty) non-digit run, alternating
non-digit / digit runs, exactly as `re.split` with a capture group returns. -/
def digitRunsAux : Bool → List Char → List Char → List (List Char)
  | inDigit, cur, [] => if inDigit then [cur.reverse, []] else [cur.reverse]
  | inDigit, cur, c :: rest =>
    if c.isDigit = inDigit then digitRunsAux inDigit (c :: cur) rest
    else cur.reverse :: digitRunsAux (!inDigit) [c] rest

/-- Model of `re.split('([0-9]+)', s)`. -/
def reSplitDigits (s : String) : List String :=
  (digitRunsAux false [] s.data).map (fun cs => ⟨cs⟩)

/-- Model of Python `str.isdigit` restricted to ASCII (the runs produced by
the regex `[0-9]+` are ASCII digit runs; empty strings are not digits). -/
def pyIsDigitStr (s : String) : Bool := !s.isEmpty && s.data.all Char.isDigit

/-- Model of Python `int` on a string of ASCII digits. -/
def pyIntOfDigits (s : String) : Nat :=
  s.data.foldl (fun acc c => 10 * acc + (c.toNat - 48)) 0

/-- The sort key of run.py line 83:
`[int(c) if c.isdigit() else c for c in re.split('([0-9]+)', x)]`. -/
def natKey (s : String) : List Chunk :=
  (reSplitDigits s).map (fun c => if pyIsDigitStr c then .num (pyIntOfDigits c) else .str c)

/-- Python string comparison: lexicographic by code point. -/
def cmpCharList : List Char → List Char → Ordering
  | [], [] => .eq
  | [], _ :: _ => .lt
  | _ :: _, [] => .gt
  | a :: as, b :: bs =>
    if a.toNat < b.toNat then .lt
    else if b.toNat < a.toNat then .gt
    else cmpCharList as bs

/-- Comparison of two key elements as Python does it: strings compare as
strings, integers as integers, and a string/integer mix raises `TypeError`
(modelled as `none`). -/
def pyCmpChunk : Chunk → Chunk → Option Ordering
  | .str a, .str b => some (cmpCharList a.data b.data)
  | .num a, .num b => some (if a < b then .lt else if b < a then .gt else .eq)
  | _, _ => none

/-- Python list comparison on sort keys: elementwise, first difference wins,
a strict prefix is smaller; a `TypeError` on an element propagates. -/
def pyCmpKey : List Chunk → List Chunk → Option Ordering
  | [], [] => some .eq
  | [], _ :: _ => some .lt
  | _ :: _, [] => some .gt
  | a :: as, b :: bs =>
    match pyCmpChunk a b with
    | none => none
    | some .eq => pyCmpKey as bs
    | some o => some o

/-- Boolean "key of `a` is not greater than key of `b`", the ordering test
`sorted` effectively uses on comparable keys. -/
def natLe (a b : String) : Bool := !(pyCmpKey (natKey a) (natKey b) == some .gt)

/-- Insertion step of the stable sort used to model Python `sorted` with the
natural-sort key. -/
def insertNat (a : String) : List String → List String
  | [] => [a]
  | b :: l => if natLe a b then a :: b :: l else b :: insertNat a l

/-- Model of `sorted(files, key=natKey)`. -/
def sortNat : List String → List String
  | [] => []
  | x :: xs => insertNat x (sortNat xs)

/-! ## Data model: decoded images and resolution policies -/

/-- A decoded PIL image as far as this program inspects it: pixel size from
`img.size` and the PIL mode string from `img.mode` (e.g. `"RGB"`, `"RGBA"`,
`"LA"`). -/
structure PILImage where
  width : Nat
  height : Nat
  mode : String
deriving DecidableEq

/-- PIL image modes that carry an alpha channel (Pillow's mode list: `RGBA`,
`LA`, `PA`, and the premultiplied variants `RGBa`, `La`). -/
def hasAlpha (mode : String) : Bool :=
  mode = "RGBA" || mode = "LA" || mode = "PA" || mode = "RGBa" || mode = "La"

/-- The `(mode, param)` pair returned by `get_user_choice` (run.py lines
31-54), as a tagged union. -/
inductive Mode where
  | use_nth_image : Nat → Mode
  | max_resolution : Mode
  | fixed_resolution : Nat → Nat → Mode
  | fixed_width : Nat → Mode
  | fixed_height : Nat → Mode
  | original_size : Mode
deriving DecidableEq

/-! ## Target size resolution (run.py lines 90-100) -/

/-- Python list indexing `l[i]`: non-negative indices are positional,
negative indices count from the end, out of range raises `IndexError`
(modelled as `none`). -/
def pyIndex (l : List α) (i : Int) : Option α :=
  if 0 ≤ i then l.get? i.toNat
  else if -i ≤ (l.length : Int) then l.get? (l.length - (-i).toNat) else none

/-- Model of Python `max` over a sequence of naturals: raises `ValueError`
on an empty sequence (`none`), otherwise folds binary max over the rest. -/
def pyMax : List Nat → Option Nat
  | [] => none
  | x :: xs => some (xs.foldl Nat.max x)

/-- Sequentially decode every image (the list comprehension
`[Image.open(f).size for f in image_files]`), counting `Image.open` calls;
the first decode failure raises (`none`), aborting the comprehension. -/
def openAll (fs : String → Option PILImage) : List String → Option (List (Nat × Nat)) × Nat
  | [] => (some [], 0)
  | p :: rest =>
    match fs p with
    | none => (none, 1)
    | some img =>
      match openAll fs rest with
      | (none, k) => (none, k + 1)
      | (some sizes, k) => (some ((img.width, img.height) :: sizes), k + 1)

/-- The target-size block of `process_images` (run.py lines 90-100). Returns
`(result, decodeCalls)` where `result` is `none` when the block raises
(decode failure or bad index) and otherwise `some target_size`, with
`target_size : Option (Nat × Nat)` (`none` models Python `None`). The second
component counts `Image.open` calls made by the block. -/
def resolveTargetSize (fs : String → Option PILImage) (mode : Mode)
    (imageFiles : List String) : Option (Option (Nat × Nat)) × Nat :=
  match mode with
  | .use_nth_image param =>
    let n : Int := min ((param : Int) - 1) ((imageFiles.length : Int) - 1)
    match pyIndex imageFiles n with
    | none => (none, 0)
    | some p =>
      match fs p with
      | none => (none, 1)
      | some img => (some (some (img.width, img.height)), 1)
  | .max_resolution =>
    match openAll fs imageFiles with
    | (none, k) => (none, k)
    | (some sizes, k) =>
      match pyMax (sizes.map Prod.fst), pyMax (sizes.map Prod.snd) with
      | some w, some h => (some (some (w, h)), k)
      | _, _ => (none, k)
  | .fixed_resolution w h => (some (some (w, h)), 0)
  | _ => (some none, 0)

/-- Definition modelled from the claim's words (spec 4.3): "clamp `n-1` to
`[0, len-1]`; open the image at that index; return its native
(width, height)" — i.e. with a lower clamp at 0, unlike the code's
`min(param - 1, len(image_files) - 1)`. -/
def resolveNthClampSpec (fs : String → Option PILImage) (param : Nat)
    (imageFiles : List String) : Option (Nat × Nat) :=
  let i : Int := max 0 (min ((param : Int) - 1) ((imageFiles.length : Int) - 1))
  match imageFiles.get? i.toNat with
  | none => none
  | some p =>
    match fs p with
    | none => none
    | some img => some (img.width, img.height)

/-- The index actually selected by the code's `image_files[min(param-1, len-1)]`
for a non-empty list, resolving Python's negative indexing: `param = 0` gives
Python index `-1`, i.e. the last element; `param ≥ 1` gives
`min (param-1) (len-1)`. -/
def pySelIdx (param len : Nat) : Nat :=
  if param = 0 then len - 1 else min (param - 1) (len - 1)

/-! ## Per-image transformation (run.py lines 105-133) -/

/-- `img.resize((w, h), Image.LANCZOS)`: changes the pixel size, keeps the
PIL mode. -/
def pyResize (img : PILImage) (w h : Nat) : PILImage :=
  { img with width := w, height := h }

/-- The in-memory transformation applied to one decoded image before
`img.save` (run.py lines 107-129): `original_size` only converts `RGBA` to
`RGB`; the other modes first resize (`fixed_width`/`fixed_height`
unconditionally, the concrete-target modes only when the size differs from
the target), then convert `RGBA` to `RGB`. -/
def transformImage (mode : Mode) (target : Option (Nat × Nat)) (img : PILImage) : PILImage :=
  match mode with
  | .original_size =>
    if img.mode = "RGBA" then { img with mode := "RGB" } else img
  | _ =>
    let img :=
      match mode, target with
      | .fixed_width w, _ => pyResize img w img.height
      | .fixed_height h, _ => pyResize img img.width h
      | _, some (w, h) =>
        if (img.width, img.height) ≠ (w, h) then pyResize img w h else img
      | _, none => img
    if img.mode = "RGBA" then { img with mode := "RGB" } else img

/-! ## The staging loop and PDF assembly (run.py lines 103-144) -/

/-- The effectful environment of one run: `fs folder file` is the result of
`Image.open` on `input/<folder>/<file>` (`none` models a decode exception),
and `saveOk tempName img` tells whether `img.save` on
`temp_pdf_images/<tempName>` succeeds. -/
structure Env where
  fs : String → String → Option PILImage
  saveOk : String → PILImage → Bool

/-- Contents of the shared `temp_pdf_images` directory: an association list
from basename to saved image, most recent write first. -/
abbrev Store := List (String × PILImage)

/-- Overwriting write of one staged file. -/
def storeInsert (st : Store) (k : String) (v : PILImage) : Store := (k, v) :: st

/-- Read of one staged file by basename (`none` when it does not exist). -/
def storeGet : Store → String → Option PILImage
  | [], _ => none
  | (k', v) :: rest, k => if k' = k then some v else storeGet rest k

/-- The outcome of staging one image path, as decided by the `try` body
(run.py lines 106-134): `none` when decode or save raises (the image is
skipped), `some out` when the transformed image `out` is staged. -/
def stageResult (env : Env) (folder : String) (mode : Mode)
    (target : Option (Nat × Nat)) (p : String) : Option PILImage :=
  match env.fs folder p with
  | none => none
  | some img =>
    let out := transformImage mode target img
    if env.saveOk p out then some out else none

/-- Accumulated state of the per-image loop: the `temp_images` list, the
temp-directory contents, and the paths whose failure was printed. -/
structure StageAcc where
  temps : List String
  store : Store
  log : List String
deriving DecidableEq

/-- The per-image loop of run.py lines 103-137: `temp_images = []`, then for
each image decode, transform, save into the shared temp directory and append
the temp path; on any exception print the path and continue. -/
def stageLoop (env : Env) (folder : String) (mode : Mode)
    (target : Option (Nat × Nat)) : List String → Store → StageAcc
  | [], st => ⟨[], st, []⟩
  | p :: rest, st =>
    match env.fs folder p with
    | none =>
      let r := stageLoop env folder mode target rest st
      ⟨r.temps, r.store, p :: r.log⟩
    | some img =>
      let out := transformImage mode target img
      if env.saveOk p out then
        let r := stageLoop env folder mode target rest (storeInsert st p out)
        ⟨p :: r.temps, r.store, r.log⟩
      else
        let r := stageLoop env folder mode target rest st
        ⟨r.temps, r.store, p :: r.log⟩

/-- Model of Python `str.lower` (ASCII case folding, which covers the
extension comparison the program performs). -/
def pyLower (s : String) : String := ⟨s.data.map Char.toLower⟩

/-- Model of Python `str.endswith` for a single candidate: the last
characters of `s` are exactly `t`. -/
def strEndsWith (s t : String) : Bool :=
  s.data.drop (s.data.length - t.data.length) == t.data

/-- Model of the extension filter of run.py line 82:
`f.lower().endswith(('.jpg', '.jpeg', '.png', '.webp'))`. -/
def recognizedExt (f : String) : Bool :=
  let l := pyLower f
  strEndsWith l ".jpg" || strEndsWith l ".jpeg" || strEndsWith l ".png" || strEndsWith l ".webp"

/-- The `image_files` list of run.py lines 79-83 for one folder whose
`os.listdir` returned `files`: recognized extensions only, natural-sorted. -/
def folderImages (files : List String) : List String :=
  sortNat (files.filter recognizedExt)

/-- Characterization helper: the (path, staged image) pairs the loop stages
for a folder, in processing order. -/
def stagedPairs (env : Env) (folder : String) (mode : Mode)
    (target : Option (Nat × Nat)) (images : List String) : Store :=
  images.filterMap (fun p => (stageResult env folder mode target p).map (fun v => (p, v)))

/-- Characterization helper: the successfully staged images of a folder, in
processing order. -/
def stagedImages (env : Env) (folder : String) (mode : Mode)
    (target : Option (Nat × Nat)) (images : List String) : List PILImage :=
  images.filterMap (stageResult env folder mode target)

/-- Result of processing one input subfolder (run.py lines 79-144): the
temp-directory contents afterwards, the PDFs written (name and pages, each
page read back from the staging area), the folders reported skipped, the
per-image failure messages (by image path), and whether an exception
escaped the folder (aborting the whole loop into the `finally`). -/
structure FolderOutcome where
  store : Store
  outputs : List (String × List (Option PILImage))
  skipped : List String
  log : List String
  raised : Bool
deriving DecidableEq

/-- Processing of one subfolder `folder_name` whose `os.listdir` returned
`files` (run.py lines 79-144): filter recognized extensions, natural-sort,
skip if empty, resolve the target size (an exception there escapes), run the
staging loop, and if any image was staged assemble
`output/<folder_name>.pdf` from the staged files in `temp_images` order. -/
def processFolder (env : Env) (mode : Mode) (folderName : String)
    (files : List String) (st : Store) : FolderOutcome :=
  let imageFiles := folderImages files
  if imageFiles.isEmpty then
    ⟨st, [], [folderName], [], false⟩
  else
    match resolveTargetSize (env.fs folderName) mode imageFiles with
    | (none, _) => ⟨st, [], [], [], true⟩
    | (some target, _) =>
      let r := stageLoop env folderName mode target imageFiles st
      let outs :=
        if r.temps.isEmpty then []
        else [(folderName ++ ".pdf", r.temps.map (fun k => storeGet r.store k))]
      ⟨r.store, outs, [], r.log, false⟩

/-- The folder loop of run.py lines 73-144: process subfolders in order; an
exception escaping one folder aborts the rest of the loop (its partial
results stand, and the `finally` still runs). -/
def runFolders (env : Env) (mode : Mode) : List (String × List String) → Store → FolderOutcome
  | [], st => ⟨st, [], [], [], false⟩
  | (name, files) :: rest, st =>
    let r := processFolder env mode name files st
    if r.raised then r
    else
      let rr := runFolders env mode rest r.store
      ⟨rr.store, r.outputs ++ rr.outputs, r.skipped ++ rr.skipped, r.log ++ rr.log, rr.raised⟩

/-- Observable outcome of one whole run of `process_images`. -/
structure RunResult where
  tempExists : Bool
  outputs : List (String × List (Option PILImage))
  skipped : List String
  log : List String
  raised : Bool
deriving DecidableEq

/-- The pipeline driver (run.py lines 56-149): `os.makedirs(temp_dir)` (so
the temp directory exists) happens at line 67; `get_user_choice()` runs at
line 70, and only then does the `try` of line 72 begin. `prompt = none`
models an exception raised inside `get_user_choice` (e.g. `EOFError` on
`input()`): it propagates before the `try/finally`, so the temp directory is
never removed. With `prompt = some mode`, the folder loop runs inside the
`try` and the `finally` of lines 146-149 removes the temp directory on both
the normal and the exceptional path. -/
def processImages (env : Env) (prompt : Option Mode)
    (folders : List (String × List String)) : RunResult :=
  match prompt with
  | none => ⟨true, [], [], [], true⟩
  | some mode =>
    let r := runFolders env mode folders []
    ⟨false, r.outputs, r.skipped, r.log, r.raised⟩

/-! ## Concrete fixtures used to evaluate the model at specific inputs -/

/-- A filesystem with a small image at `a.jpg` and a large one elsewhere. -/
def fsNth : String → Option PILImage :=
  fun p => if p = "a.jpg" then some ⟨10, 10, "RGB"⟩ else some ⟨20, 20, "RGB"⟩

/-- A grayscale image with an alpha channel (PIL mode `LA`). -/
def imgLA : PILImage := ⟨5, 5, "LA"⟩

/-- Decoded sizes for the `max_resolution` example: `(100,200)` at `"a"`,
`(300,50)` at `"b"`. -/
def decMax : String → PILImage :=
  fun p => if p = "a" then ⟨100, 200, "RGB"⟩ else ⟨300, 50, "RGB"⟩

/-- A filesystem on which every path decodes to `decMax`. -/
def fsMax : String → Option PILImage := fun p => some (decMax p)

/-- A plain RGB image used in folder-level evaluations. -/
def imgOk : PILImage := ⟨20, 20, "RGB"⟩

/-- An environment in which `2.jpg` decodes to `imgOk` and every other image
raises on decode; saving always succeeds. -/
def envFail1 : Env :=
  ⟨fun _ p => if p = "2.jpg" then some imgOk else none, fun _ _ => true⟩

/-- Decoded images for the all-success folder example. -/
def dec1 : String → PILImage :=
  fun p => if p = "1.jpg" then ⟨10, 10, "RGB"⟩ else ⟨20, 20, "RGB"⟩

/-- An environment in which every image decodes (to `dec1`) and every save
succeeds. -/
def envOk : Env := ⟨fun _ p => some (dec1 p), fun _ _ => true⟩

/-- An environment in which every image decodes to `imgLA` and saving always
succeeds. -/
def envLA : Env := ⟨fun _ _ => some imgLA, fun _ _ => true⟩

/-! ## Comparing keys of names that differ only in their numeric runs -/

/-- Two sort keys have the same text structure: same length, text chunks
equal position by position, numeric chunks aligned (values free). This is
the key-level image of "filenames that differ only in embedded numeric
runs". -/
def sameTextChunks : List Chunk → List Chunk → Bool
  | [], [] => true
  | .str a :: as, .str b :: bs => a = b && sameTextChunks as bs
  | .num _ :: as, .num _ :: bs => sameTextChunks as bs
  | _, _ => false

/-- The numeric runs of a key, in order. -/
def numsOf : List Chunk → List Nat
  | [] => []
  | .num n :: rest => n :: numsOf rest
  | .str _ :: rest => numsOf rest

/-- Lexicographic comparison of two lists of naturals. -/
def cmpNatList : List Nat → List Nat → Ordering
  | [], [] => .eq
  | [], _ :: _ => .lt
  | _ :: _, [] => .gt
  | a :: as, b :: bs =>
    if a < b then .lt else if b < a then .gt else cmpNatList as bs

lemma cmpCharList_self (l : List Char) : cmpCharList l l = .eq := by
  induction l with
  | nil => rfl
  | cons c cs ih => simp [cmpCharList, ih]

lemma pyCmpKey_sameText (k k' : List Chunk) (h : sameTextChunks k k' = true) :
    pyCmpKey k k' = some (cmpNatList (numsOf k) (numsOf k')) := by
  induction k generalizing k' with
  | nil =>
    cases k' with
    | nil => rfl
    | cons c cs => cases c <;> simp [sameTextChunks] at h
  | cons c cs ih =>
    cases k' with
    | nil => cases c <;> simp [sameTextChunks] at h
    | cons d ds =>
      cases c with
      | str a =>
        cases d with
        | str b =>
          simp only [sameTextChunks, Bool.and_eq_true, decide_eq_true_eq] at h
          obtain ⟨rfl, h2⟩ := h
          simpa [pyCmpKey, pyCmpChunk, cmpCharList_self, numsOf] using ih ds h2
        | num b => simp [sameTextChunks] at h
      | num a =>
        cases d with
        | str b => simp [sameTextChunks] at h
        | num b =>
          simp only [sameTextChunks] at h
          rcases Nat.lt_trichotomy a b with hab | rfl | hab
          · simp [pyCmpKey, pyCmpChunk, numsOf, cmpNatList, hab]
          · simpa [pyCmpKey, pyCmpChunk, numsOf, cmpNatList] using ih ds h
          · simp [Nat.lt_asymm hab, pyCmpKey, pyCmpChunk, numsOf, cmpNatList, hab]

/-- C2: for filenames that differ only in embedded numeric runs (their keys
have identical text chunks, numeric runs aligned), the natural-sort key
comparison is exactly the lexicographic integer comparison of the numeric
runs — digit runs compare as integers, non-digit runs as literal text — so
the name whose first differing numeric run is smaller sorts first. -/
theorem natKey_orders_smaller_number_first (s t : String)
    (h : sameTextChunks (natKey s) (natKey t) = true) :
    pyCmpKey (natKey s) (natKey t)
      = some (cmpNatList (numsOf (natKey s)) (numsOf (natKey t))) :=
  pyCmpKey_sameText _ _ h

/-- Witness for C2 at the claim's own example: "p2.jpg" and "p10.jpg" differ
only in their numeric run and "p2.jpg" compares strictly below "p10.jpg". -/
theorem natKey_orders_smaller_number_first_witness :
    sameTextChunks (natKey "p2.jpg") (natKey "p10.jpg") = true ∧
    pyCmpKey (natKey "p2.jpg") (natKey "p10.jpg") = some Ordering.lt :=
  ⟨by decide,
   (natKey_orders_smaller_number_first "p2.jpg" "p10.jpg" (by decide)).trans (by decide)⟩

/-- C5: a `fixed_resolution (w, h)` policy resolves to exactly `(w, h)` for
every folder content and every filesystem, with zero `Image.open` calls. -/
theorem fixed_resolution_constant_no_decode (fs : String → Option PILImage)
    (images : List String) (w h : Nat) :
    resolveTargetSize fs (.fixed_resolution w h) images = (some (some (w, h)), 0) := rfl

/-! ## The `use_nth_image` index computation (run.py lines 90-93) -/

lemma pyIndex_min (images : List String) (param : Nat) (hne : images ≠ []) :
    pyIndex images (min ((param : Int) - 1) ((images.length : Int) - 1)) =
    images.get? (pySelIdx param images.length) := by
  have hlen : 1 ≤ images.length := List.length_pos.mpr hne
  cases param with
  | zero =>
    have h2 : min (((0 : Nat) : Int) - 1) ((images.length : Int) - 1) = -1 := by
      rw [min_eq_left] <;> omega
    rw [h2]
    have h3 : ¬ (0 : Int) ≤ -1 := by norm_num
    have h4 : -(-1 : Int) ≤ (images.length : Int) := by omega
    simp only [pyIndex, if_neg h3, if_pos h4, pySelIdx, if_pos rfl]
    norm_num
  | succ k =>
    have h0 : (0 : Int) ≤ min (((k + 1 : Nat) : Int) - 1) ((images.length : Int) - 1) := by
      omega
    have h5 : (min (((k + 1 : Nat) : Int) - 1) ((images.length : Int) - 1)).toNat
        = pySelIdx (k + 1) images.length := by
      simp only [pySelIdx, if_neg (Nat.succ_ne_zero k)]
      omega
    simp only [pyIndex, if_pos h0, h5]

/-- C3 amended: for a non-empty folder, `use_nth_image n` selects index
`min (n-1) (len-1)` when `n ≥ 1` (the claimed clamp of `n-1` to
`[0, len-1]`, since `n-1 ≥ 0`), but for `n = 0` the unclamped `-1` reaches
Python's negative indexing and selects the LAST image, not the first; in
every case the selected index is inside the list (the index computation
never errors) and `n` greater than the image count selects the last image.
The resolver returns the native size of the image at that index. -/
theorem use_nth_index_semantics (fs : String → Option PILImage) (images : List String)
    (param : Nat) (p : String) (img : PILImage) (hne : images ≠ [])
    (hp : images.get? (pySelIdx param images.length) = some p)
    (hfs : fs p = some img) :
    resolveTargetSize fs (.use_nth_image param) images
      = (some (some (img.width, img.height)), 1)
    ∧ pySelIdx param images.length < images.length
    ∧ (images.length < param → pySelIdx param images.length = images.length - 1)
    ∧ (param = 0 → pySelIdx param images.length = images.length - 1)
    ∧ (1 ≤ param → pySelIdx param images.length = min (param - 1) (images.length - 1)) := by
  have hlen : 1 ≤ images.length := List.length_pos.mpr hne
  refine ⟨?_, ?_, ?_, ?_, ?_⟩
  · simp only [resolveTargetSize]
    rw [pyIndex_min images param hne, hp]
    simp [hfs]
  · unfold pySelIdx; split <;> omega
  · unfold pySelIdx; intro h; split <;> omega
  · intro h; simp [pySelIdx, h]
  · intro h; unfold pySelIdx; split <;> omega

/-- Witness for C3's amended claim: a folder of two images and `n = 5`
(greater than the count) selects the last image and returns its size. -/
theorem use_nth_index_semantics_witness :
    (["a.jpg", "b.jpg"] : List String) ≠ [] ∧
    (["a.jpg", "b.jpg"] : List String).get? (pySelIdx 5 2) = some "b.jpg" ∧
    fsNth "b.jpg" = some ⟨20, 20, "RGB"⟩ ∧
    resolveTargetSize fsNth (.use_nth_image 5) ["a.jpg", "b.jpg"]
      = (some (some (20, 20)), 1) :=
  ⟨by decide, by decide, by decide,
   (use_nth_index_semantics fsNth ["a.jpg", "b.jpg"] 5 "b.jpg" ⟨20, 20, "RGB"⟩
      (by decide) (by decide) (by decide)).1⟩

/-- C3 counterexample: with `n = 0` on a two-image folder the claim's clamp
of `n-1` into `[0, len-1]` would select index 0 (size `(10,10)`), but the
code's `image_files[min(-1, 1)] = image_files[-1]` selects the last image
and returns `(20,20)`. -/
theorem use_nth_zero_selects_last_not_clamped :
    resolveTargetSize fsNth (.use_nth_image 0) ["a.jpg", "b.jpg"]
      = (some (some (20, 20)), 1) ∧
    resolveNthClampSpec fsNth 0 ["a.jpg", "b.jpg"] = some (10, 10) ∧
    ((20, 20) : Nat × Nat) ≠ (10, 10) :=
  ⟨by decide, by decide, by decide⟩

/-- C9 amended: the staged image's PIL mode is the decoded image's mode with
only the exact mode string `"RGBA"` rewritten to `"RGB"` — the resize steps
never change the mode, and no other alpha-carrying mode is converted. -/
theorem alpha_flatten_only_rgba (mode : Mode) (target : Option (Nat × Nat)) (img : PILImage) :
    (transformImage mode target img).mode
      = if img.mode = "RGBA" then "RGB" else img.mode := by
  cases mode with
  | original_size => simp only [transformImage]; split <;> simp_all
  | use_nth_image n =>
    cases target with
    | none => simp only [transformImage]; split <;> simp_all
    | some wh =>
      obtain ⟨w, h⟩ := wh
      simp only [transformImage]
      split <;> split <;> simp_all [pyResize]
  | max_resolution =>
    cases target with
    | none => simp only [transformImage]; split <;> simp_all
    | some wh =>
      obtain ⟨w, h⟩ := wh
      simp only [transformImage]
      split <;> split <;> simp_all [pyResize]
  | fixed_resolution w h =>
    cases target with
    | none => simp only [transformImage]; split <;> simp_all
    | some wh =>
      obtain ⟨w', h'⟩ := wh
      simp only [transformImage]
      split <;> split <;> simp_all [pyResize]
  | fixed_width w => simp only [transformImage]; split <;> simp_all [pyResize]
  | fixed_height h => simp only [transformImage]; split <;> simp_all [pyResize]

/-- C9 counterexample: a decoded grayscale-plus-alpha image (PIL mode `LA`)
carries an alpha channel, yet the staged image keeps mode `LA` — only the
exact mode `RGBA` triggers `convert('RGB')` (run.py lines 110-111 and
128-129), so this staged image retains transparency. -/
theorem la_image_retains_alpha :
    stageResult envLA "A" .original_size none "x.png" = some imgLA ∧
    hasAlpha imgLA.mode = true ∧ imgLA.mode ≠ "RGB" :=
  ⟨by decide, by decide, by decide⟩

/-! ## The `max_resolution` policy (run.py lines 94-96) -/

lemma openAll_success (fs : String → Option PILImage) (dec : String → PILImage)
    (images : List String) (h : ∀ p ∈ images, fs p = some (dec p)) :
    openAll fs images
      = (some (images.map (fun p => ((dec p).width, (dec p).height))), images.length) := by
  induction images with
  | nil => rfl
  | cons p rest ih =>
    have hp := h p (List.mem_cons_self p rest)
    have hr := ih (fun q hq => h q (List.mem_cons_of_mem p hq))
    simp [openAll, hp, hr]

lemma foldl_max_spec (l : List Nat) : ∀ a : Nat,
    a ≤ l.foldl Nat.max a ∧ (∀ x ∈ l, x ≤ l.foldl Nat.max a) ∧
    (l.foldl Nat.max a = a ∨ l.foldl Nat.max a ∈ l) := by
  induction l with
  | nil => intro a; simp
  | cons x xs ih =>
    intro a
    obtain ⟨h1, h2, h3⟩ := ih (Nat.max a x)
    simp only [List.foldl_cons]
    refine ⟨le_trans (Nat.le_max_left a x) h1, ?_, ?_⟩
    · intro y hy
      rcases List.mem_cons.mp hy with rfl | hy
      · exact le_trans (Nat.le_max_right a y) h1
      · exact h2 y hy
    · rcases h3 with h | h
      · rcases Nat.le_total a x with hax | hax
        · right
          have hx : Nat.max a x = x := Nat.max_eq_right hax
          rw [h, hx]
          exact List.mem_cons_self x xs
        · left
          have hx : Nat.max a x = a := Nat.max_eq_left hax
          rw [h, hx]
      · exact Or.inr (List.mem_cons_of_mem x h)

lemma pyMax_spec (l : List Nat) (W : Nat) (h : pyMax l = some W) :
    (∀ x ∈ l, x ≤ W) ∧ W ∈ l := by
  cases l with
  | nil => simp [pyMax] at h
  | cons x xs =>
    obtain ⟨h1, h2, h3⟩ := foldl_max_spec xs x
    have hW : xs.foldl Nat.max x = W := by simpa [pyMax] using h
    subst hW
    refine ⟨?_, ?_⟩
    · intro y hy
      rcases List.mem_cons.mp hy with rfl | hy
      · exact h1
      · exact h2 y hy
    · rcases h3 with h' | h'
      · rw [h']; exact List.mem_cons_self x xs
      · exact List.mem_cons_of_mem x h'

/-- C4: for a non-empty folder in which every image decodes, the
`max_resolution` policy resolves to the componentwise maximum — the largest
width over all images paired with the largest height over all images, each
attained by some (possibly different) image — after decoding every image in
the folder exactly once. -/
theorem max_resolution_componentwise_max (fs : String → Option PILImage)
    (images : List String) (dec : String → PILImage) (W H : Nat)
    (_hne : images ≠ [])
    (hdec : ∀ p ∈ images, fs p = some (dec p))
    (hW : pyMax (images.map (fun p => (dec p).width)) = some W)
    (hH : pyMax (images.map (fun p => (dec p).height)) = some H) :
    resolveTargetSize fs .max_resolution images = (some (some (W, H)), images.length)
    ∧ (∀ p ∈ images, (dec p).width ≤ W ∧ (dec p).height ≤ H)
    ∧ (∃ p ∈ images, (dec p).width = W)
    ∧ (∃ p ∈ images, (dec p).height = H) := by
  have hopen := openAll_success fs dec images hdec
  have hfst : (images.map (fun p => ((dec p).width, (dec p).height))).map Prod.fst
      = images.map (fun p => (dec p).width) := by
    simp [List.map_map, Function.comp_def]
  have hsnd : (images.map (fun p => ((dec p).width, (dec p).height))).map Prod.snd
      = images.map (fun p => (dec p).height) := by
    simp [List.map_map, Function.comp_def]
  obtain ⟨hWle, hWmem⟩ := pyMax_spec _ _ hW
  obtain ⟨hHle, hHmem⟩ := pyMax_spec _ _ hH
  refine ⟨?_, ?_, ?_, ?_⟩
  · simp only [resolveTargetSize, hopen, hfst, hsnd, hW, hH]
  · intro p hp
    exact ⟨hWle _ (List.mem_map_of_mem _ hp), hHle _ (List.mem_map_of_mem _ hp)⟩
  · obtain ⟨p, hp, hpW⟩ := List.mem_map.mp hWmem
    exact ⟨p, hp, hpW⟩
  · obtain ⟨p, hp, hpH⟩ := List.mem_map.mp hHmem
    exact ⟨p, hp, hpH⟩

/-! ## Characterization of the staging loop (run.py lines 103-144) -/

lemma filterMap_congr_some {α β : Type} (f : α → Option β) (g : α → β) :
    ∀ l : List α, (∀ x ∈ l, f x = some (g x)) → l.filterMap f = l.map g := by
  intro l
  induction l with
  | nil => intro _; rfl
  | cons x xs ih =>
    intro h
    rw [List.filterMap_cons, h x (List.mem_cons_self x xs), List.map_cons,
      ih (fun y hy => h y (List.mem_cons_of_mem x hy))]

lemma stagedPairs_map_fst (env : Env) (folder : String) (mode : Mode)
    (target : Option (Nat × Nat)) (images : List String) :
    (stagedPairs env folder mode target images).map Prod.fst
      = images.filter (fun p => (stageResult env folder mode target p).isSome) := by
  simp only [stagedPairs]
  induction images with
  | nil => rfl
  | cons p rest ih =>
    cases h : stageResult env folder mode target p <;>
      simp [List.filterMap_cons, h, List.filter_cons, ih]

lemma stagedPairs_map_snd (env : Env) (folder : String) (mode : Mode)
    (target : Option (Nat × Nat)) (images : List String) :
    (stagedPairs env folder mode target images).map Prod.snd
      = stagedImages env folder mode target images := by
  simp only [stagedPairs, stagedImages]
  induction images with
  | nil => rfl
  | cons p rest ih =>
    cases h : stageResult env folder mode target p <;>
      simp [List.filterMap_cons, h, ih]

lemma stageLoop_spec (env : Env) (folder : String) (mode : Mode)
    (target : Option (Nat × Nat)) :
    ∀ (images : List String) (st : Store),
    stageLoop env folder mode target images st
      = ⟨(stagedPairs env folder mode target images).map Prod.fst,
         (stagedPairs env folder mode target images).reverse ++ st,
         images.filter (fun p => (stageResult env folder mode target p).isNone)⟩ := by
  intro images
  induction images with
  | nil => intro st; rfl
  | cons p rest ih =>
    intro st
    cases hfs : env.fs folder p with
    | none =>
      simp [stageLoop, hfs, stagedPairs, stageResult, List.filterMap_cons, List.filter_cons, ih,
        stagedPairs]
    | some img =>
      cases hsv : env.saveOk p (transformImage mode target img) with
      | false =>
        simp [stageLoop, hfs, hsv, stagedPairs, stageResult, List.filterMap_cons,
          List.filter_cons, ih]
      | true =>
        simp [stageLoop, hfs, hsv, stagedPairs, stageResult, List.filterMap_cons,
          List.filter_cons, ih, storeInsert]

lemma storeGet_of_mem_nodup :
    ∀ (l st : Store) (k : String) (v : PILImage),
    (l.map Prod.fst).Nodup → (k, v) ∈ l → storeGet (l ++ st) k = some v := by
  intro l
  induction l with
  | nil => intro st k v _ hmem; simp at hmem
  | cons e rest ih =>
    intro st k v hnd hmem
    obtain ⟨k', v'⟩ := e
    simp only [List.cons_append, storeGet]
    simp only [List.map_cons, List.nodup_cons] at hnd
    rcases List.mem_cons.mp hmem with heq | hmem'
    · injection heq with h1 h2
      subst h1; subst h2
      simp
    · have hkmem : k ∈ rest.map Prod.fst := by
        simpa using List.mem_map_of_mem Prod.fst hmem'
      have hk : k' ≠ k := fun hkk => hnd.1 (hkk ▸ hkmem)
      rw [if_neg hk]
      exact ih st k v hnd.2 hmem'

lemma pdfPages_eq (pairs st : Store) (hnd : (pairs.map Prod.fst).Nodup) :
    (pairs.map Prod.fst).map (fun k => storeGet (pairs.reverse ++ st) k)
      = pairs.map (fun e => some e.2) := by
  rw [List.map_map]
  apply List.map_congr_left
  intro e he
  apply storeGet_of_mem_nodup
  · simpa [List.map_reverse, List.nodup_reverse] using hnd
  · rw [List.mem_reverse]
    simpa using he

lemma processFolder_eq (env : Env) (mode : Mode) (name : String) (files : List String)
    (st : Store) (target : Option (Nat × Nat)) (cnt : Nat)
    (hne : folderImages files ≠ [])
    (hres : resolveTargetSize (env.fs name) mode (folderImages files) = (some target, cnt))
    (hnd : (folderImages files).Nodup) :
    processFolder env mode name files st =
      ⟨(stagedPairs env name mode target (folderImages files)).reverse ++ st,
       if stagedImages env name mode target (folderImages files) = [] then []
       else [(name ++ ".pdf", (stagedImages env name mode target (folderImages files)).map some)],
       [],
       (folderImages files).filter (fun p => (stageResult env name mode target p).isNone),
       false⟩ := by
  have hnd' : ((stagedPairs env name mode target (folderImages files)).map Prod.fst).Nodup := by
    rw [stagedPairs_map_fst]
    exact hnd.filter _
  simp only [processFolder]
  rw [if_neg (by simpa [List.isEmpty_iff] using hne), hres]
  dsimp only
  rw [stageLoop_spec]
  by_cases hp : stagedPairs env name mode target (folderImages files) = []
  · simp [hp, ← stagedPairs_map_snd]
  · have h1 : ¬ ((stagedPairs env name mode target (folderImages files)).map Prod.fst).isEmpty
        = true := by
      simp [List.isEmpty_iff, hp]
    have h2 : ¬ stagedImages env name mode target (folderImages files) = [] := by
      rw [← stagedPairs_map_snd]
      simp [hp]
    rw [if_neg h1, if_neg h2]
    have h3 : ((stagedPairs env name mode target (folderImages files)).map Prod.fst).map
          (fun k => storeGet ((stagedPairs env name mode target (folderImages files)).reverse
            ++ st) k)
        = (stagedImages env name mode target (folderImages files)).map some := by
      rw [pdfPages_eq _ _ hnd', ← stagedPairs_map_snd, List.map_map]
      rfl
    rw [h3]

/-- Witness for C4 at the claim's example: images of sizes `(100,200)` and
`(300,50)` resolve to exactly `(300,200)`, a size no single image has. -/
theorem max_resolution_componentwise_max_witness :
    (["a", "b"] : List String) ≠ [] ∧
    (∀ p ∈ (["a", "b"] : List String), fsMax p = some (decMax p)) ∧
    resolveTargetSize fsMax .max_resolution ["a", "b"] = (some (some (300, 200)), 2) ∧
    (∀ p ∈ (["a", "b"] : List String), (decMax p).width ≠ 300 ∨ (decMax p).height ≠ 200) :=
  ⟨by decide, by decide,
   (max_resolution_componentwise_max fsMax ["a", "b"] decMax 300 200
      (by decide) (by decide) (by decide) (by decide)).1,
   by decide⟩

/-- C7: provided the folder's target-size resolution succeeds, a per-image
decode/resize/save failure never raises out of the folder (`raised = false`),
each failing image's path is logged and the image skipped, and the folder's
PDF is still produced from exactly the images that staged successfully — no
PDF only when none succeeded. -/
theorem per_image_failure_isolated (env : Env) (mode : Mode) (name : String)
    (files : List String) (st : Store) (target : Option (Nat × Nat)) (cnt : Nat)
    (hne : folderImages files ≠ [])
    (hres : resolveTargetSize (env.fs name) mode (folderImages files) = (some target, cnt))
    (hnd : (folderImages files).Nodup) :
    (processFolder env mode name files st).raised = false
    ∧ (processFolder env mode name files st).log
        = (folderImages files).filter (fun p => (stageResult env name mode target p).isNone)
    ∧ (stagedImages env name mode target (folderImages files) = [] →
        (processFolder env mode name files st).outputs = [])
    ∧ (stagedImages env name mode target (folderImages files) ≠ [] →
        (processFolder env mode name files st).outputs
          = [(name ++ ".pdf",
              (stagedImages env name mode target (folderImages files)).map some)]) := by
  rw [processFolder_eq env mode name files st target cnt hne hres hnd]
  refine ⟨rfl, rfl, ?_, ?_⟩ <;> intro h <;> simp [h]

/-- Witness for C7: in a two-image folder whose first image fails to decode,
the failure is logged by path, the folder does not raise, and the PDF is
produced from the surviving second image. -/
theorem per_image_failure_isolated_witness :
    folderImages ["1.jpg", "2.jpg"] ≠ [] ∧
    resolveTargetSize (envFail1.fs "A") .original_size (folderImages ["1.jpg", "2.jpg"])
      = (some none, 0) ∧
    (folderImages ["1.jpg", "2.jpg"]).Nodup ∧
    (processFolder envFail1 .original_size "A" ["1.jpg", "2.jpg"] []).raised = false ∧
    (processFolder envFail1 .original_size "A" ["1.jpg", "2.jpg"] []).log = ["1.jpg"] := by
  have h := per_image_failure_isolated envFail1 .original_size "A" ["1.jpg", "2.jpg"] []
    none 0 (by decide) (by decide) (by decide)
  exact ⟨by decide, by decide, by decide, h.1, h.2.1.trans (by decide)⟩

/-- C10: the `temp_images` list is rebuilt from empty for each folder and
every staged basename is rewritten before being appended, so the folder's
PDF contents are the folder's own staged images — identical for any two
prior states of the shared temp directory, including states in which an
earlier folder staged files under the same basenames. -/
theorem folder_pdf_store_isolation (env : Env) (mode : Mode) (name : String)
    (files : List String) (st₁ st₂ : Store) (target : Option (Nat × Nat)) (cnt : Nat)
    (hne : folderImages files ≠ [])
    (hres : resolveTargetSize (env.fs name) mode (folderImages files) = (some target, cnt))
    (hnd : (folderImages files).Nodup) :
    (processFolder env mode name files st₁).outputs
      = (processFolder env mode name files st₂).outputs
    ∧ ((processFolder env mode name files st₁).outputs = []
       ∨ (processFolder env mode name files st₁).outputs
          = [(name ++ ".pdf",
              (stagedImages env name mode target (folderImages files)).map some)]) := by
  rw [processFolder_eq env mode name files st₁ target cnt hne hres hnd,
    processFolder_eq env mode name files st₂ target cnt hne hres hnd]
  refine ⟨rfl, ?_⟩
  by_cases h : stagedImages env name mode target (folderImages files) = [] <;> simp [h]

/-- Witness for C10: an earlier folder left a colliding `2.jpg` (contents
`⟨10,10,"RGB"⟩`) in the temp directory; the folder's PDF nevertheless equals
the one produced from an empty temp directory and holds the folder's own
`2.jpg` (contents `imgOk`). -/
theorem folder_pdf_store_isolation_witness :
    (processFolder envFail1 .original_size "A" ["1.jpg", "2.jpg"]
        [("2.jpg", ⟨10, 10, "RGB"⟩)]).outputs
      = (processFolder envFail1 .original_size "A" ["1.jpg", "2.jpg"] []).outputs ∧
    (processFolder envFail1 .original_size "A" ["1.jpg", "2.jpg"]
        [("2.jpg", ⟨10, 10, "RGB"⟩)]).outputs = [("A.pdf", [some imgOk])] := by
  have h := folder_pdf_store_isolation envFail1 .original_size "A" ["1.jpg", "2.jpg"]
    [("2.jpg", ⟨10, 10, "RGB"⟩)] [] none 0 (by decide) (by decide) (by decide)
  refine ⟨h.1, ?_⟩
  rcases h.2 with h' | h'
  · exact absurd h' (by decide)
  · exact h'.trans (by decide)

/-- C1 amended: when every image of the folder decodes and saves
successfully, the produced PDF's page list is exactly the image list in
natural-sort order, page `i` being the staged conversion of the `i`-th
image; when some images fail, the pages are the staged conversions of the
surviving images only (see the counterexample), still in natural-sort
order. -/
theorem pdf_pages_natural_order_when_all_stage (env : Env) (mode : Mode) (name : String)
    (files : List String) (st : Store) (target : Option (Nat × Nat)) (cnt : Nat)
    (dec : String → PILImage)
    (hne : folderImages files ≠ [])
    (hres : resolveTargetSize (env.fs name) mode (folderImages files) = (some target, cnt))
    (hnd : (folderImages files).Nodup)
    (hdec : ∀ p ∈ folderImages files, env.fs name p = some (dec p))
    (hsave : ∀ p ∈ folderImages files,
      env.saveOk p (transformImage mode target (dec p)) = true) :
    (processFolder env mode name files st).outputs
      = [(name ++ ".pdf",
          (folderImages files).map (fun p => some (transformImage mode target (dec p))))] := by
  have hall : ∀ p ∈ folderImages files,
      stageResult env name mode target p = some (transformImage mode target (dec p)) := by
    intro p hp
    simp [stageResult, hdec p hp, hsave p hp]
  have himgs : stagedImages env name mode target (folderImages files)
      = (folderImages files).map (fun p => transformImage mode target (dec p)) := by
    exact filterMap_congr_some _ _ _ hall
  have hne2 : stagedImages env name mode target (folderImages files) ≠ [] := by
    rw [himgs]
    simpa using hne
  rw [processFolder_eq env mode name files st target cnt hne hres hnd, if_neg hne2, himgs,
    List.map_map]
  rfl

/-- Witness for C1's amended claim: a folder listed as `["2.jpg", "1.jpg"]`
is naturally sorted to `["1.jpg", "2.jpg"]` and, with every image staging
successfully, yields a PDF whose page `i` is the conversion of the `i`-th
sorted image. -/
theorem pdf_pages_natural_order_when_all_stage_witness :
    folderImages ["2.jpg", "1.jpg"] = ["1.jpg", "2.jpg"] ∧
    (processFolder envOk .original_size "A" ["2.jpg", "1.jpg"] []).outputs
      = [("A.pdf", [some (⟨10, 10, "RGB"⟩ : PILImage), some (⟨20, 20, "RGB"⟩ : PILImage)])] := by
  have h := pdf_pages_natural_order_when_all_stage envOk .original_size "A" ["2.jpg", "1.jpg"]
    [] none 0 dec1 (by decide) (by decide) (by decide) (by decide) (by decide)
  exact ⟨by decide, h.trans (by decide)⟩

/-- C1 counterexample: in a folder whose recognized images are
`["1.jpg", "2.jpg"]` but whose first image fails to decode, a PDF is still
produced with a single page, so its page list cannot equal the two-element
natural-sort order of the folder's image files — page order matches only
the surviving images. -/
theorem pdf_page_count_mismatch_on_failure :
    (processFolder envFail1 .original_size "A" ["1.jpg", "2.jpg"] []).outputs
      = [("A.pdf", [some imgOk])] ∧
    folderImages ["1.jpg", "2.jpg"] = ["1.jpg", "2.jpg"] ∧
    ([some imgOk] : List (Option PILImage)).length
      ≠ (folderImages ["1.jpg", "2.jpg"]).length :=
  ⟨by decide, by decide, by decide⟩

/-! ## The folder loop (run.py lines 73-144) -/

lemma processFolder_empty (env : Env) (mode : Mode) (name : String) (files : List String)
    (st : Store) (h : files.filter recognizedExt = []) :
    processFolder env mode name files st = ⟨st, [], [name], [], false⟩ := by
  simp [processFolder, folderImages, h, sortNat]

lemma runFolders_append (env : Env) (mode : Mode) :
    ∀ (l₁ l₂ : List (String × List String)) (st : Store),
    runFolders env mode (l₁ ++ l₂) st
      = (if (runFolders env mode l₁ st).raised then runFolders env mode l₁ st
         else
           ⟨(runFolders env mode l₂ (runFolders env mode l₁ st).store).store,
            (runFolders env mode l₁ st).outputs
              ++ (runFolders env mode l₂ (runFolders env mode l₁ st).store).outputs,
            (runFolders env mode l₁ st).skipped
              ++ (runFolders env mode l₂ (runFolders env mode l₁ st).store).skipped,
            (runFolders env mode l₁ st).log
              ++ (runFolders env mode l₂ (runFolders env mode l₁ st).store).log,
            (runFolders env mode l₂ (runFolders env mode l₁ st).store).raised⟩) := by
  intro l₁
  induction l₁ with
  | nil => intro l₂ st; simp [runFolders]
  | cons f rest ih =>
    intro l₂ st
    obtain ⟨name, files⟩ := f
    cases hr : (processFolder env mode name files st).raised with
    | true => simp [runFolders, hr]
    | false =>
      simp only [List.cons_append, runFolders, hr, Bool.false_eq_true, if_false,
        List.append_eq]
      rw [ih]
      cases hrr : (runFolders env mode rest (processFolder env mode name files st).store).raised
          with
      | true => simp [hrr]
      | false => simp [hrr, List.append_assoc]

/-- C8: a folder with zero recognized image files contributes no output PDF
and no exception: the run's outputs, temp-directory state, log and raised
flag all equal those of the same run without that folder, the folder's name
is reported in the skipped list, and the following folders are processed
unchanged. -/
theorem empty_folder_skipped_run_continues (env : Env) (mode : Mode)
    (pre post : List (String × List String)) (name : String) (files : List String)
    (st : Store)
    (hempty : files.filter recognizedExt = [])
    (hpre : (runFolders env mode pre st).raised = false) :
    (runFolders env mode (pre ++ (name, files) :: post) st).outputs
      = (runFolders env mode (pre ++ post) st).outputs
    ∧ (runFolders env mode (pre ++ (name, files) :: post) st).store
      = (runFolders env mode (pre ++ post) st).store
    ∧ (runFolders env mode (pre ++ (name, files) :: post) st).raised
      = (runFolders env mode (pre ++ post) st).raised
    ∧ (runFolders env mode (pre ++ (name, files) :: post) st).log
      = (runFolders env mode (pre ++ post) st).log
    ∧ name ∈ (runFolders env mode (pre ++ (name, files) :: post) st).skipped := by
  have he := processFolder_empty env mode name files (runFolders env mode pre st).store hempty
  rw [runFolders_append, runFolders_append, hpre]
  simp only [Bool.false_eq_true, if_false]
  show _ ∧ _ ∧ _ ∧ _ ∧ name ∈ (runFolders env mode pre st).skipped ++ _
  simp only [runFolders, he]
  simp [List.mem_append]

/-- Witness for C8: a run over `[("Empty", ["readme.txt"]), ("B", ["x.jpg"])]`
skips `"Empty"`, still produces `B.pdf`, and equals the run without the
empty folder. -/
theorem empty_folder_skipped_run_continues_witness :
    ((["readme.txt"] : List String).filter recognizedExt = []) ∧
    (runFolders envOk .original_size [("Empty", ["readme.txt"]), ("B", ["x.jpg"])] []).outputs
      = (runFolders envOk .original_size [("B", ["x.jpg"])] []).outputs ∧
    "Empty" ∈ (runFolders envOk .original_size
        [("Empty", ["readme.txt"]), ("B", ["x.jpg"])] []).skipped ∧
    (runFolders envOk .original_size [("Empty", ["readme.txt"]), ("B", ["x.jpg"])] []).outputs
      = [("B.pdf", [some (⟨20, 20, "RGB"⟩ : PILImage)])] := by
  have h := empty_folder_skipped_run_continues envOk .original_size [] [("B", ["x.jpg"])]
    "Empty" ["readme.txt"] [] (by decide) (by decide)
  exact ⟨by decide, h.1, h.2.2.2.2, by decide⟩

/-- C6 counterexample: run.py creates `temp_pdf_images` at line 67 and only
enters the `try/finally` at line 72; the interactive `get_user_choice()` at
line 70 sits in between, so an exception raised there (e.g. `EOFError` from
`input()`) is an exit path after the temp directory is created on which the
directory is never removed. -/
theorem temp_dir_survives_prompt_exception :
    (processImages envOk none [("A", ["1.jpg"])]).tempExists = true := rfl

/-- C6 amended: once the policy prompt has returned (so control reaches the
`try` of line 72), the `finally` of lines 146-149 removes the temp staging
directory on every exit path — normal completion, isolated per-image
errors, or an exception escaping the folder loop; only an exception raised
during the prompt itself, between the directory's creation and the `try`,
leaves it in place. -/
theorem temp_dir_removed_after_prompt (env : Env) (mode : Mode)
    (folders : List (String × List String)) :
    (processImages env (some mode) folders).tempExists = false := rfl

end PDFTurn
